import Mathlib

/-!
Shallow embedding of the per-turn fleet decision engine of
`Halite3_C++_Windows-x86/MyBot.cpp` (the Halite III bot "LaBeteDuMaroc").

The embedding follows the source file: the `ReturnScheduler` class, the
`ShipHaliteComparator`, and the per-ship body of the main loop (lines
118-176), plus the spawn decision (lines 179-183).  The `hlt` helper
library (positions, game map, navigation) is not part of the analysed
sources; positions and map access are modelled from the spec (toroidal
wraparound, equality respecting normalization), and the navigation
primitive `naive_navigate` is an opaque parameter, as the spec treats it
as an external collaborator.
-/

namespace HaliteBot

/-- Grid coordinate.  Modelled from the spec: positions carry toroidal
wraparound semantics; every position produced by the engine is kept in
normalized form so that plain equality respects wraparound. -/
abbrev Pos := Int × Int

/-- Single-step directions; `still` is the no-move direction. -/
inductive Direction
  | north
  | south
  | east
  | west
  | still
deriving DecidableEq, Repr

/-- The coordinate offset of each direction (grid y grows southwards). -/
def cardinalOffset : Direction → Pos
  | Direction.north => (0, -1)
  | Direction.south => (0, 1)
  | Direction.east  => (1, 0)
  | Direction.west  => (-1, 0)
  | Direction.still => (0, 0)

/-- The fixed cardinal scan order used by the harvest search
(`ALL_CARDINALS` of the starter kit: north, south, east, west). -/
def ALL_CARDINALS : List Direction :=
  [Direction.north, Direction.south, Direction.east, Direction.west]

/-- An owned unit: stable integer id, carried halite, current position. -/
structure Ship where
  id : Int
  halite : Int
  position : Pos
deriving DecidableEq, Repr

/-- Read-only snapshot of the grid for one turn: dimensions, resource
amount per cell, occupancy flag per cell. -/
structure GameMap where
  width : Int
  height : Int
  halite : Pos → Int
  occupied : Pos → Bool

/-- Modelled from the spec: wraparound normalization of a coordinate. -/
def GameMap.normalize (m : GameMap) (p : Pos) : Pos :=
  (p.1 % m.width, p.2 % m.height)

/-- `Position::directional_offset` followed by map normalization
(modelled from the spec: equality of positions respects wraparound). -/
def directional_offset (m : GameMap) (p : Pos) (d : Direction) : Pos :=
  m.normalize (p.1 + (cardinalOffset d).1, p.2 + (cardinalOffset d).2)

/-- `constants::MAX_HALITE` (default engine value). -/
def MAX_HALITE : Int := 1000

/-- `constants::SHIP_COST` (default engine value). -/
def SHIP_COST : Int := 1000

/-- `RETURN_THRESHOLD_TURNS = 25` (MyBot.cpp line 14). -/
def RETURN_THRESHOLD_TURNS : Int := 25

/-- `MAX_HALITE * SHIP_FULL_THRESHOLD` with `SHIP_FULL_THRESHOLD = 0.9`
(line 15); `1000 * 0.9` evaluates to exactly `900.0` in double
arithmetic, so the comparison is the integer comparison with 900. -/
def SHIP_FULL_AMOUNT : Int := 900

/-- `MAX_HALITE * RETURN_HALITE_THRESHOLD` with the threshold `0.5`
(line 16); exactly 500 in double arithmetic. -/
def RETURN_HALITE_AMOUNT : Int := 500

/-- `RETURN_TO_BASE = 220` (line 17), the spawn cutoff turn. -/
def RETURN_TO_BASE : Int := 220

/-- `ShipHaliteComparator` (lines 20-24): strict comparison by halite,
descending. -/
def shipHaliteComparator (a b : Ship) : Bool :=
  decide (a.halite > b.halite)

/-- `std::sort` postcondition for the comparator: in the output list no
later element compares before an earlier one. -/
def sortedByComparator (l : List Ship) : Prop :=
  l.Pairwise (fun a b => shipHaliteComparator b a = false)

/-- The ordering asserted by the spec: descending carried halite with
unit id as the tiebreak on equal halite. -/
def idTiebreakOrdered (l : List Ship) : Prop :=
  l.Pairwise (fun a b => a.halite > b.halite ∨ (a.halite = b.halite ∧ a.id < b.id))

/-- State of the `ReturnScheduler` class (lines 27-81): the set of
returning ship ids and the single priority-returner slot (the C++ member
`current_returning_ship` is a pointer; only its id is ever consulted). -/
structure ReturnScheduler where
  returning_ships : Finset Int
  current_returning_ship : Option Int
deriving DecidableEq

/-- `ReturnScheduler::should_return` (lines 37-65).  Returns the decision
together with the updated scheduler state.  `ship == sorted_ships[0]` is
pointer equality in the source; within one turn each ship object occurs
once in the list, so it is the first-element test. -/
def ReturnScheduler.should_return (st : ReturnScheduler) (ship : Ship)
    (turn_number max_turns : Int) (sorted_ships : List Ship) :
    Bool × ReturnScheduler :=
  if ship.id ∈ st.returning_ships then
    (true, st)
  else if turn_number ≥ max_turns - RETURN_THRESHOLD_TURNS then
    (true, { st with returning_ships := insert ship.id st.returning_ships })
  else if ship.halite ≥ SHIP_FULL_AMOUNT then
    (true, { st with returning_ships := insert ship.id st.returning_ships })
  else if st.current_returning_ship = none ∧ sorted_ships.head? = some ship ∧
      ship.halite ≥ RETURN_HALITE_AMOUNT then
    (true, { returning_ships := insert ship.id st.returning_ships,
             current_returning_ship := some ship.id })
  else
    (false, st)

/-- `ReturnScheduler::update_status` (lines 68-75). -/
def ReturnScheduler.update_status (st : ReturnScheduler) (ship : Ship)
    (base_pos : Pos) : ReturnScheduler :=
  if ship.position = base_pos then
    { returning_ships := st.returning_ships.erase ship.id,
      current_returning_ship :=
        if st.current_returning_ship = some ship.id then none
        else st.current_returning_ship }
  else st

/-- `ReturnScheduler::is_returning` (lines 78-80). -/
def ReturnScheduler.is_returning (st : ReturnScheduler) (ship_id : Int) : Bool :=
  decide (ship_id ∈ st.returning_ships)

/-- A queued command: a move order, a stay order, or a spawn order. -/
inductive Command
  | move (shipId : Int) (d : Direction)
  | stayStill (shipId : Int)
  | spawn
deriving DecidableEq, Repr

/-- The ship a command is addressed to, if any. -/
def Command.unitId : Command → Option Int
  | Command.move i _ => some i
  | Command.stayStill i => some i
  | Command.spawn => none

/-- Whether a command is a move order. -/
def Command.isMove : Command → Bool
  | Command.move _ _ => true
  | _ => false

/-- One step of the harvest scan (the body of the loop at lines
148-157): an unoccupied neighbour with strictly more halite than the
running maximum replaces the running best. -/
def scanStep (m : GameMap) (acc : Pos × Int) (q : Pos) : Pos × Int :=
  if m.occupied q = false then
    if m.halite q > acc.2 then (q, m.halite q) else acc
  else acc

/-- `best_position` after the scan at lines 144-157: fold of `scanStep`
over the four cardinal neighbours, seeded with the ship's own cell. -/
def bestPosition (m : GameMap) (p : Pos) : Pos :=
  (ALL_CARDINALS.foldl (fun acc d => scanStep m acc (directional_offset m p d))
    (p, m.halite p)).1

/-- The harvest target of a non-returning unit, as computed by the main
loop (lines 139-160): harvest in place on a productive cell, otherwise
the result of the neighbour scan. -/
def harvestTarget (m : GameMap) (p : Pos) : Pos :=
  if m.halite p ≥ MAX_HALITE / 10 then p else bestPosition m p

/-- Spec-side definition (follows the wording of spec §4.2, for
comparison with `harvestTarget`): the unoccupied orthogonal neighbours in
the fixed cardinal scan order. -/
def unoccupiedNeighbors (m : GameMap) (p : Pos) : List Pos :=
  (ALL_CARDINALS.map (directional_offset m p)).filter (fun q => !m.occupied q)

/-- Spec-side definition: the maximum resource amount over the unoccupied
neighbours, with the current cell's amount as the floor. -/
def maxUnoccupiedHalite (m : GameMap) (p : Pos) : Int :=
  (unoccupiedNeighbors m p).foldl (fun acc q => max acc (m.halite q)) (m.halite p)

/-- Spec-side definition (follows the wording of spec §4.2): stay on a
productive cell; otherwise move to the first unoccupied neighbour
attaining the maximum amount, provided it strictly exceeds the current
cell; otherwise stay. -/
def specHarvestTarget (m : GameMap) (p : Pos) : Pos :=
  if m.halite p ≥ MAX_HALITE / 10 then p
  else if maxUnoccupiedHalite m p > m.halite p then
    ((unoccupiedNeighbors m p).find?
      (fun q => m.halite q == maxUnoccupiedHalite m p)).getD p
  else p

/-- Per-turn mutable state of the main loop: the scheduler, the command
queue, the targeted-position set, and a trace of the destinations
committed by move orders (one entry is appended exactly where the source
inserts into `targeted_positions`). -/
structure TurnState where
  scheduler : ReturnScheduler
  commands : List Command
  targeted : Finset Pos
  moveDests : List Pos
deriving DecidableEq

/-- The body of the per-ship loop (lines 118-176).  `nav` is the opaque
external `naive_navigate` primitive. -/
def process_ship (gm : GameMap) (nav : Ship → Pos → Direction) (base : Pos)
    (turn_number max_turns : Int) (sorted : List Ship)
    (ts : TurnState) (ship : Ship) : TurnState :=
  let st1 := ts.scheduler.update_status ship base
  let r := st1.should_return ship turn_number max_turns sorted
  if r.1 then
    let mv := nav ship base
    let target := directional_offset gm ship.position mv
    if target ∉ ts.targeted then
      { scheduler := r.2, commands := ts.commands ++ [Command.move ship.id mv],
        targeted := insert target ts.targeted,
        moveDests := ts.moveDests ++ [target] }
    else
      { ts with scheduler := r.2,
                commands := ts.commands ++ [Command.stayStill ship.id] }
  else if gm.halite ship.position ≥ MAX_HALITE / 10 then
    { ts with scheduler := r.2,
              commands := ts.commands ++ [Command.stayStill ship.id] }
  else
    let best := bestPosition gm ship.position
    if best ≠ ship.position then
      let mv := nav ship best
      let target := directional_offset gm ship.position mv
      if target ∉ ts.targeted then
        { scheduler := r.2, commands := ts.commands ++ [Command.move ship.id mv],
          targeted := insert target ts.targeted,
          moveDests := ts.moveDests ++ [target] }
      else
        { ts with scheduler := r.2,
                  commands := ts.commands ++ [Command.stayStill ship.id] }
    else
      { ts with scheduler := r.2,
                commands := ts.commands ++ [Command.stayStill ship.id] }

/-- The per-ship loop over the sorted ship list, from the empty per-turn
state (lines 107-108 and 118-176). -/
def process_ships (gm : GameMap) (nav : Ship → Pos → Direction) (base : Pos)
    (turn_number max_turns : Int) (sorted : List Ship) (st : ReturnScheduler) :
    TurnState :=
  sorted.foldl (process_ship gm nav base turn_number max_turns sorted)
    ⟨st, [], ∅, []⟩

/-- One full turn (lines 107-183): the per-ship loop followed by the
spawn decision. -/
def process_turn (gm : GameMap) (nav : Ship → Pos → Direction) (base : Pos)
    (funds turn_number max_turns : Int) (st : ReturnScheduler)
    (sorted : List Ship) : TurnState :=
  let ts := process_ships gm nav base turn_number max_turns sorted st
  if turn_number ≤ RETURN_TO_BASE ∧ funds ≥ SHIP_COST ∧
      gm.occupied base = false then
    { ts with commands := ts.commands ++ [Command.spawn] }
  else ts

/-- The scheduler update performed for one ship: status update followed
by classification (lines 120-123); the classification result does not
affect which scheduler state is kept. -/
def scheduler_step (base : Pos) (turn_number max_turns : Int)
    (sorted : List Ship) (st : ReturnScheduler) (ship : Ship) :
    ReturnScheduler :=
  ((st.update_status ship base).should_return ship turn_number max_turns
    sorted).2

/-- The scheduler state after a whole turn's ship loop. -/
def scheduler_after_turn (base : Pos) (turn_number max_turns : Int)
    (sorted : List Ship) (st : ReturnScheduler) : ReturnScheduler :=
  sorted.foldl (scheduler_step base turn_number max_turns sorted) st

/-- The scheduler state after a sequence of turns; each entry of `turns`
is the turn number together with that turn's sorted ship list. -/
def run_turns (base : Pos) (max_turns : Int) (st : ReturnScheduler)
    (turns : List (Int × List Ship)) : ReturnScheduler :=
  turns.foldl
    (fun s t => scheduler_after_turn base t.1 max_turns t.2 s) st

/-- Variant of `should_return` with the economic priority-returner
trigger (the fourth rule) removed; used to state that a permanently
occupied priority slot disables exactly that rule. -/
def ReturnScheduler.should_return_no_econ (st : ReturnScheduler) (ship : Ship)
    (turn_number max_turns : Int) : Bool × ReturnScheduler :=
  if ship.id ∈ st.returning_ships then
    (true, st)
  else if turn_number ≥ max_turns - RETURN_THRESHOLD_TURNS then
    (true, { st with returning_ships := insert ship.id st.returning_ships })
  else if ship.halite ≥ SHIP_FULL_AMOUNT then
    (true, { st with returning_ships := insert ship.id st.returning_ships })
  else
    (false, st)

/-- `scheduler_step` for the no-economic-trigger variant. -/
def scheduler_step_no_econ (base : Pos) (turn_number max_turns : Int)
    (st : ReturnScheduler) (ship : Ship) : ReturnScheduler :=
  ((st.update_status ship base).should_return_no_econ ship turn_number
    max_turns).2

/-- A whole turn of the no-economic-trigger variant. -/
def scheduler_after_turn_no_econ (base : Pos) (turn_number max_turns : Int)
    (sorted : List Ship) (st : ReturnScheduler) : ReturnScheduler :=
  sorted.foldl (scheduler_step_no_econ base turn_number max_turns) st

/-- A sequence of turns of the no-economic-trigger variant. -/
def run_turns_no_econ (base : Pos) (max_turns : Int) (st : ReturnScheduler)
    (turns : List (Int × List Ship)) : ReturnScheduler :=
  turns.foldl
    (fun s t => scheduler_after_turn_no_econ base t.1 max_turns t.2 s) st

/-! ### Helper lemmas about the per-ship loop -/

/-- Every branch of the per-ship loop body appends exactly one command,
addressed to the processed ship. -/
theorem process_ship_commands (gm : GameMap) (nav : Ship → Pos → Direction)
    (base : Pos) (turn_number max_turns : Int) (sorted : List Ship)
    (ts : TurnState) (ship : Ship) :
    ∃ c : Command,
      (process_ship gm nav base turn_number max_turns sorted ts ship).commands
        = ts.commands ++ [c] ∧ c.unitId = some ship.id := by
  simp only [process_ship]
  split_ifs <;> exact ⟨_, rfl, rfl⟩

/-- The unit ids addressed by the loop's command queue, in order. -/
theorem process_ships_foldl_unitIds (gm : GameMap)
    (nav : Ship → Pos → Direction) (base : Pos)
    (turn_number max_turns : Int) (sorted : List Ship) :
    ∀ (ships : List Ship) (ts : TurnState),
      ((ships.foldl (process_ship gm nav base turn_number max_turns sorted)
          ts).commands.filterMap Command.unitId)
        = ts.commands.filterMap Command.unitId ++ ships.map Ship.id := by
  intro ships
  induction ships with
  | nil => intro ts; simp
  | cons s rest ih =>
    intro ts
    rw [List.foldl_cons, ih]
    obtain ⟨c, hc, hid⟩ :=
      process_ship_commands gm nav base turn_number max_turns sorted ts s
    rw [hc]
    simp [List.filterMap_append, hid]

/-- The per-ship loop never enqueues a spawn order. -/
theorem process_ships_foldl_no_spawn (gm : GameMap)
    (nav : Ship → Pos → Direction) (base : Pos)
    (turn_number max_turns : Int) (sorted : List Ship) :
    ∀ (ships : List Ship) (ts : TurnState),
      (Command.spawn ∈
          (ships.foldl (process_ship gm nav base turn_number max_turns sorted)
            ts).commands)
        ↔ Command.spawn ∈ ts.commands := by
  intro ships
  induction ships with
  | nil => intro ts; simp
  | cons s rest ih =>
    intro ts
    rw [List.foldl_cons, ih]
    obtain ⟨c, hc, hid⟩ :=
      process_ship_commands gm nav base turn_number max_turns sorted ts s
    rw [hc]
    have hne : Command.spawn ≠ c := by
      intro h
      rw [← h] at hid
      simp [Command.unitId] at hid
    simp [List.mem_append, hne]

/-! ### Claims -/

/-- C1: for every turn, the main loop appends exactly one command (a Move
or a StayStill) per unit of the per-turn ordering, so the emitted unit
actions are addressed to exactly the owned units in order — none is
skipped — and their number equals the number of owned units. -/
theorem claim_C1_one_action_per_unit (gm : GameMap)
    (nav : Ship → Pos → Direction) (base : Pos)
    (funds turn_number max_turns : Int) (st : ReturnScheduler)
    (sorted : List Ship) :
    ((process_turn gm nav base funds turn_number max_turns st
        sorted).commands.filterMap Command.unitId) = sorted.map Ship.id
    ∧ ((process_turn gm nav base funds turn_number max_turns st
        sorted).commands.filterMap Command.unitId).length = sorted.length := by
  have h := process_ships_foldl_unitIds gm nav base turn_number max_turns
    sorted sorted ⟨st, [], ∅, []⟩
  constructor
  · unfold process_turn process_ships
    split_ifs <;> simp_all [List.filterMap_append, Command.unitId]
  · unfold process_turn process_ships
    split_ifs <;> simp_all [List.filterMap_append, Command.unitId]

/-- C5: a Spawn order is emitted on a turn iff the turn number is at most
220, the player's funds cover the unit cost, and the home-base cell is
unoccupied; in particular no spawn is emitted at turn 221. -/
theorem claim_C5_spawn_iff (gm : GameMap) (nav : Ship → Pos → Direction)
    (base : Pos) (funds turn_number max_turns : Int) (st : ReturnScheduler)
    (sorted : List Ship) :
    (Command.spawn ∈ (process_turn gm nav base funds turn_number max_turns st
        sorted).commands)
      ↔ (turn_number ≤ RETURN_TO_BASE ∧ funds ≥ SHIP_COST ∧
          gm.occupied base = false) := by
  have h := process_ships_foldl_no_spawn gm nav base turn_number max_turns
    sorted sorted ⟨st, [], ∅, []⟩
  unfold process_turn
  split_ifs with hc
  · simp only [List.mem_append]
    unfold process_ships
    simp_all
  · unfold process_ships
    simp_all

/-- Loop invariant of the conflict resolver: the targeted set is exactly
the set of committed move destinations, those destinations are pairwise
distinct, and there is one per committed move order. -/
def TurnInv (ts : TurnState) : Prop :=
  ts.targeted = ts.moveDests.toFinset ∧ ts.moveDests.Nodup ∧
  ts.moveDests.length = (ts.commands.filter Command.isMove).length

/-- Appending one element to a list adds it to the list's finset. -/
theorem toFinset_snoc (l : List Pos) (t : Pos) :
    (l ++ [t]).toFinset = insert t l.toFinset := by
  simp only [List.toFinset_append, List.toFinset_cons, List.toFinset_nil,
    insert_emptyc_eq]
  exact (Finset.union_comm _ _).trans (Finset.insert_eq _ _).symm

/-- Appending a fresh element preserves `Nodup`. -/
theorem nodup_snoc (l : List Pos) (t : Pos) (h : l.Nodup) (ht : t ∉ l) :
    (l ++ [t]).Nodup := by
  simp [List.nodup_append, h, ht]

/-- A StayStill branch of the loop body preserves the invariant. -/
theorem TurnInv.stay_snoc (ts : TurnState) (sc : ReturnScheduler) (i : Int)
    (h : TurnInv ts) :
    TurnInv { ts with scheduler := sc,
                      commands := ts.commands ++ [Command.stayStill i] } := by
  obtain ⟨h1, h2, h3⟩ := h
  exact ⟨h1, h2, by simp [List.filter_append, Command.isMove, h3]⟩

/-- A committed-move branch of the loop body preserves the invariant. -/
theorem TurnInv.move_snoc (ts : TurnState) (sc : ReturnScheduler) (i : Int)
    (d : Direction) (t : Pos) (h : TurnInv ts) (ht : t ∉ ts.targeted) :
    TurnInv { scheduler := sc,
              commands := ts.commands ++ [Command.move i d],
              targeted := insert t ts.targeted,
              moveDests := ts.moveDests ++ [t] } := by
  obtain ⟨h1, h2, h3⟩ := h
  rw [h1] at ht
  refine ⟨?_, ?_, ?_⟩
  · dsimp only
    rw [toFinset_snoc, h1]
  · exact nodup_snoc _ _ h2 (by simpa using ht)
  · simp [List.filter_append, Command.isMove, h3]

theorem process_ship_inv (gm : GameMap) (nav : Ship → Pos → Direction)
    (base : Pos) (turn_number max_turns : Int) (sorted : List Ship)
    (ts : TurnState) (ship : Ship) (h : TurnInv ts) :
    TurnInv (process_ship gm nav base turn_number max_turns sorted ts ship) := by
  simp only [process_ship]
  split_ifs <;>
    first
      | exact TurnInv.move_snoc ts _ _ _ _ h (by assumption)
      | exact TurnInv.stay_snoc ts _ _ h

/-- The whole per-ship loop preserves the conflict-resolver invariant. -/
theorem process_ships_foldl_inv (gm : GameMap) (nav : Ship → Pos → Direction)
    (base : Pos) (turn_number max_turns : Int) (sorted : List Ship) :
    ∀ (ships : List Ship) (ts : TurnState), TurnInv ts →
      TurnInv
        (ships.foldl (process_ship gm nav base turn_number max_turns sorted)
          ts) := by
  intro ships
  induction ships with
  | nil => intro ts h; exact h
  | cons s rest ih =>
    intro ts h
    rw [List.foldl_cons]
    exact ih _ (process_ship_inv gm nav base turn_number max_turns sorted ts s h)

/-- The invariant holds of the whole turn's result (the spawn decision
touches only the command queue, with a non-move order). -/
theorem process_turn_inv (gm : GameMap) (nav : Ship → Pos → Direction)
    (base : Pos) (funds turn_number max_turns : Int) (st : ReturnScheduler)
    (sorted : List Ship) :
    TurnInv (process_turn gm nav base funds turn_number max_turns st sorted) := by
  have h := process_ships_foldl_inv gm nav base turn_number max_turns sorted
    sorted ⟨st, [], ∅, []⟩ (by refine ⟨?_, ?_, ?_⟩ <;> simp)
  unfold process_turn
  obtain ⟨h1, h2, h3⟩ := h
  split_ifs
  · exact ⟨h1, h2, by simp [process_ships] at h1 h2 h3 ⊢
                      simp [List.filter_append, Command.isMove, h3]⟩
  · exact ⟨h1, h2, h3⟩

/-- Concrete map for the conflict example: empty 8×8 grid. -/
def exMapConflict : GameMap :=
  { width := 8, height := 8, halite := fun _ => 0, occupied := fun _ => false }

/-- Concrete navigation primitive for the conflict example: ship 1 is
routed east, everything else west. -/
def exNavConflict : Ship → Pos → Direction := fun s _ =>
  if s.id = 1 then Direction.east else Direction.west

/-- C2: the destinations of committed Move orders of one turn are
pairwise distinct (one per Move order), and in the spec's example — two
returning units desiring destination (3,3), the higher-carrying one
processed first — the first gets the Move and the second is downgraded to
StayStill. -/
theorem claim_C2_move_destinations_distinct :
    (∀ (gm : GameMap) (nav : Ship → Pos → Direction) (base : Pos)
      (funds turn_number max_turns : Int) (st : ReturnScheduler)
      (sorted : List Ship),
      (process_turn gm nav base funds turn_number max_turns st
          sorted).moveDests.Nodup ∧
      (process_turn gm nav base funds turn_number max_turns st
          sorted).moveDests.length
        = ((process_turn gm nav base funds turn_number max_turns st
            sorted).commands.filter Command.isMove).length)
    ∧ (process_turn exMapConflict exNavConflict (3, 3) 0 50 400
        ⟨{1, 2}, none⟩
        [⟨1, 100, (2, 3)⟩, ⟨2, 50, (4, 3)⟩]).commands
      = [Command.move 1 Direction.east, Command.stayStill 2] := by
  constructor
  · intro gm nav base funds turn_number max_turns st sorted
    obtain ⟨h1, h2, h3⟩ :=
      process_turn_inv gm nav base funds turn_number max_turns st sorted
    exact ⟨h2, h3⟩
  · decide

/-- Concrete map for the stay-claims-nothing example: ship 1 sits on a
productive cell (halite 150) at (2,0) and stays; ship 2 at (3,0) is
returning and is routed west onto (2,0). -/
def exMapStay : GameMap :=
  { width := 8, height := 8,
    halite := fun p => if p = (2, 0) then 150 else 10,
    occupied := fun p => decide (p = (2, 0) ∨ p = (3, 0)) }

/-- Concrete navigation primitive: always west. -/
def exNavWest : Ship → Pos → Direction := fun _ _ => Direction.west

/-- C9: a committed StayStill never claims a position — the targeted set
equals (as a set) the committed move destinations — and concretely a
later-processed unit may be granted a Move onto the current cell of a
unit that stays still this turn. -/
theorem claim_C9_stay_claims_nothing :
    (∀ (gm : GameMap) (nav : Ship → Pos → Direction) (base : Pos)
      (funds turn_number max_turns : Int) (st : ReturnScheduler)
      (sorted : List Ship),
      (process_turn gm nav base funds turn_number max_turns st
          sorted).targeted
        = (process_turn gm nav base funds turn_number max_turns st
            sorted).moveDests.toFinset)
    ∧ ((process_turn exMapStay exNavWest (0, 0) 0 50 400 ⟨{2}, none⟩
          [⟨1, 400, (2, 0)⟩, ⟨2, 300, (3, 0)⟩]).commands
        = [Command.stayStill 1, Command.move 2 Direction.west]
      ∧ (process_turn exMapStay exNavWest (0, 0) 0 50 400 ⟨{2}, none⟩
          [⟨1, 400, (2, 0)⟩, ⟨2, 300, (3, 0)⟩]).targeted = {(2, 0)}) := by
  constructor
  · intro gm nav base funds turn_number max_turns st sorted
    obtain ⟨h1, h2, h3⟩ :=
      process_turn_inv gm nav base funds turn_number max_turns st sorted
    exact h1
  · constructor <;> decide

/-! ### Helper lemmas about the return scheduler -/

/-- A true classification leaves the ship's id in the returning set. -/
theorem should_return_true_mem (st : ReturnScheduler) (ship : Ship)
    (turn_number max_turns : Int) (sorted : List Ship)
    (h : (st.should_return ship turn_number max_turns sorted).1 = true) :
    ship.id ∈
      (st.should_return ship turn_number max_turns sorted).2.returning_ships := by
  unfold ReturnScheduler.should_return at h ⊢
  split_ifs at h ⊢ with h1 h2 h3 h4 <;> simp_all [Finset.mem_insert]

/-- Classification never removes an id from the returning set. -/
theorem should_return_mem_mono (st : ReturnScheduler) (ship : Ship)
    (turn_number max_turns : Int) (sorted : List Ship) (i : Int)
    (h : i ∈ st.returning_ships) :
    i ∈ (st.should_return ship turn_number max_turns sorted).2.returning_ships := by
  unfold ReturnScheduler.should_return
  split_ifs <;> simp_all [Finset.mem_insert]

/-- The status update keeps an id that is not removed by a base arrival
of a ship with that id. -/
theorem update_status_mem (st : ReturnScheduler) (ship : Ship) (base : Pos)
    (i : Int) (h : i ∈ st.returning_ships)
    (hs : ship.id = i → ship.position ≠ base) :
    i ∈ (st.update_status ship base).returning_ships := by
  unfold ReturnScheduler.update_status
  by_cases hp : ship.position = base
  · have hne : ship.id ≠ i := fun he => hs he hp
    rw [if_pos hp]
    simp [Finset.mem_erase, h, Ne.symm hne]
  · rw [if_neg hp]
    exact h

/-- Membership in the returning set survives a per-ship scheduler step
whenever the step's ship is not that id sitting at base. -/
theorem scheduler_step_mem (base : Pos) (turn_number max_turns : Int)
    (sorted : List Ship) (st : ReturnScheduler) (ship : Ship) (i : Int)
    (h : i ∈ st.returning_ships) (hs : ship.id = i → ship.position ≠ base) :
    i ∈ (scheduler_step base turn_number max_turns sorted st ship).returning_ships := by
  unfold scheduler_step
  exact should_return_mem_mono _ _ _ _ _ _ (update_status_mem st ship base i h hs)

/-- Membership in the returning set survives a whole turn in which no
same-id ship sits at base. -/
theorem scheduler_after_turn_mem (base : Pos) (turn_number max_turns : Int)
    (sorted : List Ship) (i : Int) :
    ∀ (ships : List Ship) (st : ReturnScheduler), i ∈ st.returning_ships →
      (∀ s ∈ ships, s.id = i → s.position ≠ base) →
      i ∈ (ships.foldl (scheduler_step base turn_number max_turns sorted)
            st).returning_ships := by
  intro ships
  induction ships with
  | nil => intro st h _; exact h
  | cons s rest ih =>
    intro st h hs
    rw [List.foldl_cons]
    exact ih _
      (scheduler_step_mem base turn_number max_turns sorted st s i h
        (hs s (List.mem_cons_self s rest)))
      (fun x hx => hs x (List.mem_cons_of_mem s hx))

/-- C4: returning classification is sticky until base arrival: a true
classification puts the ship's id in the returning set; an id in the set
is classified returning again after the status update whenever the ship
is away from base, and the id stays in the set; the status update removes
the id exactly on base arrival (before classification); and the id
persists through any sequence of turns in which no same-id ship sits at
base. -/
theorem claim_C4_sticky_return (st : ReturnScheduler) (ship : Ship)
    (turn_number max_turns : Int) (sorted : List Ship) (base : Pos) :
    ((st.should_return ship turn_number max_turns sorted).1 = true →
      ship.id ∈
        (st.should_return ship turn_number max_turns sorted).2.returning_ships)
    ∧ (ship.id ∈ st.returning_ships → ship.position ≠ base →
        ((st.update_status ship base).should_return ship turn_number max_turns
            sorted).1 = true
        ∧ ship.id ∈
          ((st.update_status ship base).should_return ship turn_number max_turns
              sorted).2.returning_ships)
    ∧ (ship.position = base →
        ship.id ∉ (st.update_status ship base).returning_ships)
    ∧ (∀ (turns : List (Int × List Ship)), ship.id ∈ st.returning_ships →
        (∀ t ∈ turns, ∀ s ∈ t.2, s.id = ship.id → s.position ≠ base) →
        ship.id ∈ (run_turns base max_turns st turns).returning_ships) := by
  refine ⟨should_return_true_mem st ship turn_number max_turns sorted,
    ?_, ?_, ?_⟩
  · intro hmem hpos
    have hu : st.update_status ship base = st := by
      unfold ReturnScheduler.update_status
      rw [if_neg hpos]
    rw [hu]
    have ht : (st.should_return ship turn_number max_turns sorted).1 = true := by
      unfold ReturnScheduler.should_return
      rw [if_pos hmem]
    exact ⟨ht, should_return_true_mem st ship turn_number max_turns sorted ht⟩
  · intro hpos
    unfold ReturnScheduler.update_status
    rw [if_pos hpos]
    simp [Finset.mem_erase]
  · intro turns
    induction turns generalizing st with
    | nil => intro h _; exact h
    | cons t rest ih =>
      intro h hs
      unfold run_turns
      rw [List.foldl_cons]
      have h1 := scheduler_after_turn_mem base t.1 max_turns t.2 ship.id t.2 st
        h (fun s hsm => hs t (List.mem_cons_self t rest) s hsm)
      exact ih _ h1 (fun u hu s hsm => hs u (List.mem_cons_of_mem t hu) s hsm)

/-- Witness for C4 at a concrete state: a ship with id 7, already in the
returning set and away from base, is classified returning again. -/
theorem claim_C4_witness :
    (((⟨{7}, none⟩ : ReturnScheduler).update_status ⟨7, 0, (1, 1)⟩
        (0, 0)).should_return ⟨7, 0, (1, 1)⟩ 5 400 [⟨7, 0, (1, 1)⟩]).1 = true :=
  ((claim_C4_sticky_return ⟨{7}, none⟩ ⟨7, 0, (1, 1)⟩ 5 400 [⟨7, 0, (1, 1)⟩]
    (0, 0)).2.1 (by decide) (by decide)).1

/-- C6: priority-returner discipline.  The status update clears the slot
exactly when the processed ship is the slot's occupant sitting at base
(and removes the id from the returning set exactly on base arrival);
classification fills the slot — with the processed ship — only when the
slot is empty and the economic trigger's conditions hold, and otherwise
leaves it unchanged, so at most one unit occupies the slot at any time. -/
theorem claim_C6_priority_slot (st : ReturnScheduler) (ship : Ship)
    (turn_number max_turns : Int) (sorted : List Ship) (base : Pos) :
    (st.update_status ship base).current_returning_ship
      = (if ship.position = base ∧ st.current_returning_ship = some ship.id
         then none else st.current_returning_ship)
    ∧ (st.update_status ship base).returning_ships
      = (if ship.position = base then st.returning_ships.erase ship.id
         else st.returning_ships)
    ∧ (st.should_return ship turn_number max_turns sorted).2.current_returning_ship
      = (if ship.id ∉ st.returning_ships
            ∧ ¬(turn_number ≥ max_turns - RETURN_THRESHOLD_TURNS)
            ∧ ¬(ship.halite ≥ SHIP_FULL_AMOUNT)
            ∧ st.current_returning_ship = none
            ∧ sorted.head? = some ship
            ∧ ship.halite ≥ RETURN_HALITE_AMOUNT
         then some ship.id else st.current_returning_ship) := by
  refine ⟨?_, ?_, ?_⟩
  · unfold ReturnScheduler.update_status
    split_ifs <;> simp_all
  · unfold ReturnScheduler.update_status
    split_ifs <;> simp_all
  · unfold ReturnScheduler.should_return
    split_ifs <;> simp_all

/-! ### The dangling priority-returner slot -/

/-- The status update for a ship of a different id never clears an
occupied priority slot. -/
theorem update_status_current_ne (st : ReturnScheduler) (ship : Ship)
    (base : Pos) (i : Int) (h : st.current_returning_ship = some i)
    (hid : ship.id ≠ i) :
    (st.update_status ship base).current_returning_ship = some i := by
  unfold ReturnScheduler.update_status
  by_cases hp : ship.position = base
  · rw [if_pos hp]
    have hne : st.current_returning_ship ≠ some ship.id := by
      rw [h]
      intro he
      exact hid (Option.some.injEq .. ▸ he).symm
    simp only [if_neg hne]
    exact h
  · rw [if_neg hp]
    exact h

/-- Classification leaves an occupied priority slot unchanged. -/
theorem should_return_current_of_some (st : ReturnScheduler) (ship : Ship)
    (turn_number max_turns : Int) (sorted : List Ship) (i : Int)
    (h : st.current_returning_ship = some i) :
    (st.should_return ship turn_number max_turns
        sorted).2.current_returning_ship = some i := by
  unfold ReturnScheduler.should_return
  split_ifs <;> simp_all

/-- With an occupied priority slot, classification coincides with the
variant that lacks the economic trigger. -/
theorem should_return_occupied_no_econ (st : ReturnScheduler) (ship : Ship)
    (turn_number max_turns : Int) (sorted : List Ship)
    (h : st.current_returning_ship ≠ none) :
    st.should_return ship turn_number max_turns sorted
      = st.should_return_no_econ ship turn_number max_turns := by
  unfold ReturnScheduler.should_return ReturnScheduler.should_return_no_econ
  split_ifs <;> simp_all

/-- One scheduler step with a dangling slot occupant: the slot survives
and the step equals the no-economic-trigger step. -/
theorem scheduler_step_dangling (base : Pos) (turn_number max_turns : Int)
    (sorted : List Ship) (st : ReturnScheduler) (ship : Ship) (i : Int)
    (h : st.current_returning_ship = some i) (hid : ship.id ≠ i) :
    scheduler_step base turn_number max_turns sorted st ship
        = scheduler_step_no_econ base turn_number max_turns st ship
    ∧ (scheduler_step base turn_number max_turns sorted st
        ship).current_returning_ship = some i := by
  have h1 := update_status_current_ne st ship base i h hid
  constructor
  · unfold scheduler_step scheduler_step_no_econ
    rw [should_return_occupied_no_econ _ _ _ _ _ (by rw [h1]; exact fun he => Option.noConfusion he)]
  · unfold scheduler_step
    exact should_return_current_of_some _ _ _ _ _ i h1

/-- A whole turn's ship fold with a dangling slot occupant. -/
theorem scheduler_fold_dangling (base : Pos) (turn_number max_turns : Int)
    (sorted : List Ship) (i : Int) :
    ∀ (ships : List Ship) (st : ReturnScheduler),
      st.current_returning_ship = some i → (∀ s ∈ ships, s.id ≠ i) →
      ships.foldl (scheduler_step base turn_number max_turns sorted) st
          = ships.foldl (scheduler_step_no_econ base turn_number max_turns) st
      ∧ (ships.foldl (scheduler_step base turn_number max_turns sorted)
          st).current_returning_ship = some i := by
  intro ships
  induction ships with
  | nil => intro st h _; exact ⟨rfl, h⟩
  | cons s rest ih =>
    intro st h hs
    obtain ⟨he, hc⟩ := scheduler_step_dangling base turn_number max_turns
      sorted st s i h (hs s (List.mem_cons_self s rest))
    rw [List.foldl_cons, List.foldl_cons, ← he]
    exact ih _ hc (fun x hx => hs x (List.mem_cons_of_mem s hx))

/-- C10: if the priority slot holds an id that never again appears in any
turn's unit list (the occupant was destroyed away from base), the slot is
never cleared for the rest of the game, and the whole scheduler evolution
coincides with the variant whose economic early-return trigger is
removed — only the endgame and full-capacity triggers can still add units
to the returning set. -/
theorem claim_C10_dangling_priority_slot (base : Pos) (max_turns : Int)
    (st : ReturnScheduler) (i : Int) (turns : List (Int × List Ship))
    (h : st.current_returning_ship = some i)
    (habs : ∀ t ∈ turns, ∀ s ∈ t.2, s.id ≠ i) :
    (run_turns base max_turns st turns).current_returning_ship = some i
    ∧ run_turns base max_turns st turns
        = run_turns_no_econ base max_turns st turns := by
  induction turns generalizing st with
  | nil => exact ⟨h, rfl⟩
  | cons t rest ih =>
    obtain ⟨he, hc⟩ := scheduler_fold_dangling base t.1 max_turns t.2 i t.2 st
      h (habs t (List.mem_cons_self t rest))
    unfold run_turns run_turns_no_econ
    rw [List.foldl_cons, List.foldl_cons]
    have hrec := ih _ hc
      (fun u hu s hsm => habs u (List.mem_cons_of_mem t hu) s hsm)
    unfold run_turns run_turns_no_econ at hrec
    unfold scheduler_after_turn scheduler_after_turn_no_econ
    rw [← he]
    exact hrec

/-- Witness for C10: a slot occupied by the destroyed id 3 survives a
turn whose only ship has id 1, and the run equals the no-economic-trigger
run. -/
theorem claim_C10_witness :
    (run_turns (0, 0) 400 ⟨{3}, some 3⟩
        [(10, [⟨1, 0, (1, 1)⟩])]).current_returning_ship = some 3
    ∧ run_turns (0, 0) 400 ⟨{3}, some 3⟩ [(10, [⟨1, 0, (1, 1)⟩])]
        = run_turns_no_econ (0, 0) 400 ⟨{3}, some 3⟩ [(10, [⟨1, 0, (1, 1)⟩])] :=
  claim_C10_dangling_priority_slot (0, 0) 400 ⟨{3}, some 3⟩ 3
    [(10, [⟨1, 0, (1, 1)⟩])] rfl (by decide)

/-! ### Stale returning ids (C7) and the processing order (C8) -/

/-- The scheduler component of the loop body is the scheduler step,
whatever branch the command logic takes. -/
theorem process_ship_scheduler (gm : GameMap) (nav : Ship → Pos → Direction)
    (base : Pos) (turn_number max_turns : Int) (sorted : List Ship)
    (ts : TurnState) (ship : Ship) :
    (process_ship gm nav base turn_number max_turns sorted ts ship).scheduler
      = scheduler_step base turn_number max_turns sorted ts.scheduler ship := by
  simp only [process_ship]
  split_ifs <;> rfl

/-- The scheduler component of the whole loop is the scheduler fold. -/
theorem process_ships_foldl_scheduler (gm : GameMap)
    (nav : Ship → Pos → Direction) (base : Pos)
    (turn_number max_turns : Int) (sorted : List Ship) :
    ∀ (ships : List Ship) (ts : TurnState),
      ((ships.foldl (process_ship gm nav base turn_number max_turns sorted)
          ts).scheduler)
        = ships.foldl (scheduler_step base turn_number max_turns sorted)
            ts.scheduler := by
  intro ships
  induction ships with
  | nil => intro ts; rfl
  | cons s rest ih =>
    intro ts
    rw [List.foldl_cons, List.foldl_cons, ih,
      process_ship_scheduler gm nav base turn_number max_turns sorted ts s]

/-- Counterexample to C7 as stated: with id 5 in the returning set and no
ship of id 5 in the turn's unit list, the turn does NOT purge 5 from the
returning set — it is still there afterwards. -/
theorem claim_C7_counterexample :
    (5 : Int) ∉ ([⟨1, 0, (1, 1)⟩] : List Ship).map Ship.id
    ∧ (5 : Int) ∈ (process_turn exMapConflict exNavWest (0, 0) 0 50 400
        ⟨{5}, none⟩ [⟨1, 0, (1, 1)⟩]).scheduler.returning_ships := by
  constructor <;> decide

/-- C7 (amended): a unit id present in the returning set but absent from
the current unit list is never consulted: it is NOT purged — it stays in
the returning set — and the condition is non-fatal: no action is emitted
for the stale id and every live unit still receives exactly one action. -/
theorem claim_C7_stale_id_harmless (gm : GameMap)
    (nav : Ship → Pos → Direction) (base : Pos)
    (funds turn_number max_turns : Int) (st : ReturnScheduler)
    (sorted : List Ship) (i : Int) (hmem : i ∈ st.returning_ships)
    (habs : i ∉ sorted.map Ship.id) :
    i ∈ (process_turn gm nav base funds turn_number max_turns st
        sorted).scheduler.returning_ships
    ∧ i ∉ ((process_turn gm nav base funds turn_number max_turns st
        sorted).commands.filterMap Command.unitId)
    ∧ ((process_turn gm nav base funds turn_number max_turns st
        sorted).commands.filterMap Command.unitId) = sorted.map Ship.id := by
  have hids := process_ships_foldl_unitIds gm nav base turn_number max_turns
    sorted sorted ⟨st, [], ∅, []⟩
  have hsched := process_ships_foldl_scheduler gm nav base turn_number
    max_turns sorted sorted ⟨st, [], ∅, []⟩
  have hmem' : i ∈ (process_ships gm nav base turn_number max_turns sorted
      st).scheduler.returning_ships := by
    unfold process_ships
    rw [hsched]
    refine scheduler_after_turn_mem base turn_number max_turns sorted i sorted
      st hmem ?_
    intro s hsm hsi
    exact absurd (List.mem_map_of_mem Ship.id hsm) (hsi ▸ habs)
  have hcmds : ((process_turn gm nav base funds turn_number max_turns st
      sorted).commands.filterMap Command.unitId) = sorted.map Ship.id := by
    unfold process_turn process_ships
    split_ifs <;> simp_all [List.filterMap_append, Command.unitId]
  refine ⟨?_, ?_, hcmds⟩
  · unfold process_turn
    split_ifs <;> exact hmem'
  · rw [hcmds]
    exact habs

/-- Witness for C7 (amended) at a concrete input. -/
theorem claim_C7_witness :
    (5 : Int) ∈ (process_turn exMapConflict exNavWest (0, 0) 0 60 400
        ⟨{5}, none⟩ [⟨2, 0, (1, 1)⟩]).scheduler.returning_ships :=
  (claim_C7_stale_id_harmless exMapConflict exNavWest (0, 0) 0 60 400
    ⟨{5}, none⟩ [⟨2, 0, (1, 1)⟩] 5 (by decide) (by decide)).1

/-- Counterexample to C8 as stated: two ships with equal halite, the one
with the larger id first.  Both orders satisfy the comparator's sort
postcondition — the comparator gives no id tiebreak — and the first order
violates the claimed id-ascending tiebreak. -/
theorem claim_C8_counterexample :
    sortedByComparator [⟨2, 50, (0, 0)⟩, ⟨1, 50, (1, 0)⟩]
    ∧ sortedByComparator [⟨1, 50, (1, 0)⟩, ⟨2, 50, (0, 0)⟩]
    ∧ ¬ idTiebreakOrdered [⟨2, 50, (0, 0)⟩, ⟨1, 50, (1, 0)⟩] := by
  refine ⟨?_, ?_, ?_⟩ <;>
    simp [sortedByComparator, idTiebreakOrdered, shipHaliteComparator,
      List.pairwise_cons]

/-- C8 (amended): any list satisfying the comparator's sort postcondition
is in descending (non-increasing) carried-halite order; the relative
order of equal-halite units is not constrained by the comparator. -/
theorem claim_C8_descending_halite (l : List Ship)
    (h : sortedByComparator l) :
    l.Pairwise (fun a b => b.halite ≤ a.halite) :=
  h.imp (fun hab => le_of_not_lt (of_decide_eq_false hab))

/-- Witness for C8 (amended) at a concrete comparator-sorted list. -/
theorem claim_C8_witness :
    ([⟨2, 50, (0, 0)⟩, ⟨1, 40, (1, 0)⟩] : List Ship).Pairwise
      (fun a b => b.halite ≤ a.halite) :=
  claim_C8_descending_halite [⟨2, 50, (0, 0)⟩, ⟨1, 40, (1, 0)⟩]
    (by simp [sortedByComparator, shipHaliteComparator, List.pairwise_cons])

/-! ### The harvest selector (C3) -/

/-- The running-maximum fold never goes below its seed. -/
theorem foldl_max_le (m : GameMap) :
    ∀ (l : List Pos) (h0 : Int),
      h0 ≤ l.foldl (fun acc q => max acc (m.halite q)) h0 := by
  intro l
  induction l with
  | nil => intro h0; exact le_refl h0
  | cons q l ih =>
    intro h0
    rw [List.foldl_cons]
    exact le_trans (le_max_left h0 (m.halite q)) (ih (max h0 (m.halite q)))

/-- The running maximum is the seed or is attained by a list element. -/
theorem foldl_max_attained (m : GameMap) :
    ∀ (l : List Pos) (h0 : Int),
      l.foldl (fun acc q => max acc (m.halite q)) h0 = h0
      ∨ ∃ x ∈ l, m.halite x
          = l.foldl (fun acc q => max acc (m.halite q)) h0 := by
  intro l
  induction l with
  | nil => intro h0; exact Or.inl rfl
  | cons q l ih =>
    intro h0
    rw [List.foldl_cons]
    rcases ih (max h0 (m.halite q)) with h | ⟨x, hx, hvx⟩
    · rw [h]
      rcases le_total h0 (m.halite q) with hle | hle
      · exact Or.inr ⟨q, List.mem_cons_self q l, (max_eq_right hle).symm⟩
      · exact Or.inl (max_eq_left hle)
    · exact Or.inr ⟨x, List.mem_cons_of_mem q hx, hvx⟩

/-- Characterization of the harvest scan fold: it returns the seed
position unless some unoccupied cell strictly beats the seed amount, in
which case it returns the first cell attaining the maximum amount. -/
theorem scan_foldl_spec (m : GameMap) :
    ∀ (l : List Pos) (p0 : Pos) (h0 : Int),
      (l.foldl (scanStep m) (p0, h0)).1
        = if (l.filter (fun q => !m.occupied q)).foldl
              (fun acc q => max acc (m.halite q)) h0 > h0
          then (((l.filter (fun q => !m.occupied q)).find?
              (fun q => m.halite q
                == (l.filter (fun q => !m.occupied q)).foldl
                  (fun acc q => max acc (m.halite q)) h0)).getD p0)
          else p0 := by
  intro l
  induction l with
  | nil =>
    intro p0 h0
    simp
  | cons q l ih =>
    intro p0 h0
    rw [List.foldl_cons]
    by_cases hq : m.occupied q
    · have hfilter : (q :: l).filter (fun x => !m.occupied x)
          = l.filter (fun x => !m.occupied x) := by
        simp [List.filter_cons, hq]
      have hstep : scanStep m (p0, h0) q = (p0, h0) := by
        simp [scanStep, hq]
      rw [hfilter, hstep, ih]
    · have hfilter : (q :: l).filter (fun x => !m.occupied x)
          = q :: l.filter (fun x => !m.occupied x) := by
        simp [List.filter_cons, hq]
      rw [hfilter]
      simp only [List.foldl_cons]
      by_cases ha : m.halite q > h0
      · have hmax0 : max h0 (m.halite q) = m.halite q :=
          max_eq_right (le_of_lt ha)
        rw [hmax0]
        have hstep : scanStep m (p0, h0) q = (q, m.halite q) := by
          simp [scanStep, hq, ha]
        rw [hstep, ih]
        have hle : m.halite q
            ≤ (l.filter (fun x => !m.occupied x)).foldl
                (fun acc x => max acc (m.halite x)) (m.halite q) :=
          foldl_max_le m _ _
        rw [if_pos (lt_of_lt_of_le ha hle)]
        by_cases hM : (l.filter (fun x => !m.occupied x)).foldl
            (fun acc x => max acc (m.halite x)) (m.halite q) > m.halite q
        · rw [if_pos hM]
          have hne : (m.halite q
              == (l.filter (fun x => !m.occupied x)).foldl
                (fun acc x => max acc (m.halite x)) (m.halite q)) = false := by
            simp only [beq_eq_false_iff_ne, ne_eq]
            intro he
            rw [← he] at hM
            exact lt_irrefl _ hM
          rw [List.find?_cons, hne]
          rcases foldl_max_attained m (l.filter (fun x => !m.occupied x))
              (m.halite q) with h | ⟨x, hx, hvx⟩
          · rw [h] at hM
            exact absurd hM (lt_irrefl _)
          · have hsome : ((l.filter (fun x => !m.occupied x)).find?
                (fun y => m.halite y
                  == (l.filter (fun x => !m.occupied x)).foldl
                    (fun acc x => max acc (m.halite x)) (m.halite q))).isSome := by
              rw [List.find?_isSome]
              exact ⟨x, hx, by simp [hvx]⟩
            obtain ⟨y, hy⟩ := Option.isSome_iff_exists.mp hsome
            rw [hy]
            rfl
        · rw [if_neg hM]
          have heq : (l.filter (fun x => !m.occupied x)).foldl
              (fun acc x => max acc (m.halite x)) (m.halite q) = m.halite q :=
            le_antisymm (not_lt.mp hM) hle
          have htrue : (m.halite q
              == (l.filter (fun x => !m.occupied x)).foldl
                (fun acc x => max acc (m.halite x)) (m.halite q)) = true := by
            simp [heq]
          rw [List.find?_cons, htrue]
          rfl
      · have hmax0 : max h0 (m.halite q) = h0 :=
          max_eq_left (not_lt.mp ha)
        rw [hmax0]
        have hstep : scanStep m (p0, h0) q = (p0, h0) := by
          simp [scanStep, hq, ha]
        rw [hstep, ih]
        by_cases hM : (l.filter (fun x => !m.occupied x)).foldl
            (fun acc x => max acc (m.halite x)) h0 > h0
        · rw [if_pos hM, if_pos hM]
          have hne : (m.halite q
              == (l.filter (fun x => !m.occupied x)).foldl
                (fun acc x => max acc (m.halite x)) h0) = false := by
            simp only [beq_eq_false_iff_ne, ne_eq]
            intro he
            rw [← he] at hM
            exact absurd (lt_of_le_of_lt (not_lt.mp ha) hM) (lt_irrefl _)
          rw [List.find?_cons, hne]
        · rw [if_neg hM, if_neg hM]

/-- C3: the harvest-target policy.  For a unit not returning: if the
current cell's amount is at least MaxResource/10 the target is the
current position; otherwise the target is the first unoccupied orthogonal
neighbour (in the fixed cardinal scan order) attaining the maximum
amount, provided that amount strictly exceeds the current cell's;
otherwise the target is the current position.  Stated as: the source's
scan (`harvestTarget`) equals the spec-worded selector
(`specHarvestTarget`). -/
theorem claim_C3_harvest_policy (m : GameMap) (p : Pos) :
    harvestTarget m p = specHarvestTarget m p := by
  unfold harvestTarget specHarvestTarget
  by_cases h0 : m.halite p ≥ MAX_HALITE / 10
  · rw [if_pos h0, if_pos h0]
  · rw [if_neg h0, if_neg h0]
    have hb : bestPosition m p
        = ((ALL_CARDINALS.map (directional_offset m p)).foldl (scanStep m)
            (p, m.halite p)).1 := by
      unfold bestPosition
      rw [List.foldl_map]
    rw [hb, scan_foldl_spec m _ p (m.halite p)]
    rfl

end HaliteBot
